import Mathlib

/-!
# Verification of the mate-clipboard core (clipman-item.c, clipman-storage.c, clipman-applet.c)

A shallow embedding, in Lean 4, of the clipboard-item content model, the
sqlite-backed history storage, and the applet's buffer-emptied handler of the
mate-clipboard repository.  C strings are modelled as Lean `String`
(a list of unicode characters; byte-level operations of the C code act on
ASCII bytes only, where the two views agree), nullable pointers as `Option`,
the items table as a list of row records together with the AUTOINCREMENT
counter, and wall-clock time as an explicit `now : Int` argument
(`g_get_real_time () / 1000000` in the C code).  Database calls are modelled
in their success behaviour: the statements involved are constant well-formed
SQL, and the spec's error policy treats persistence failure as an orthogonal
concern.  External library functions used by the code (GLib string utilities,
SHA-1 via `g_compute_checksum_for_data`, the PNG codec of gdk-pixbuf) are
modelled faithfully to their documented behaviour; SHA-1 is implemented in
full so that checksum comparisons are those of the real program.
-/

set_option maxRecDepth 100000

/-! ## SHA-1 (`g_compute_checksum_for_data (G_CHECKSUM_SHA1, ...)`)

Messages are lists of bytes (`Nat` below 256); the digest is rendered as the
40-character lowercase hex string that GLib returns. -/

/-- Truncate to a 32-bit word. -/
def w32 (n : Nat) : Nat := n % 4294967296

/-- Rotate a 32-bit word left by `k` bits. -/
def rotl (k n : Nat) : Nat := w32 ((n <<< k) ||| (n >>> (32 - k)))

/-- Big-endian 8-byte encoding of a (bit-)length. -/
def be64 (n : Nat) : List Nat :=
  [(n >>> 56) &&& 255, (n >>> 48) &&& 255, (n >>> 40) &&& 255, (n >>> 32) &&& 255,
   (n >>> 24) &&& 255, (n >>> 16) &&& 255, (n >>> 8) &&& 255, n &&& 255]

/-- SHA-1 padding: append 0x80, zero-pad to 56 mod 64, append the bit length. -/
def sha1Pad (msg : List Nat) : List Nat :=
  let len := msg.length
  let k := (120 - ((len + 1) % 64)) % 64
  msg ++ [128] ++ List.replicate k 0 ++ be64 (len * 8)

/-- Four big-endian bytes at a time into 32-bit words. -/
def bytesToWords : List Nat → List Nat
  | a :: b :: c :: d :: rest =>
      ((((a <<< 8) ||| b) <<< 8 ||| c) <<< 8 ||| d) :: bytesToWords rest
  | _ => []

/-- Split a byte list into 64-byte blocks (`fuel` bounds the recursion; it is
always called with the length of the list). -/
def chunks64Aux : Nat → List Nat → List (List Nat)
  | 0, _ => []
  | _, [] => []
  | fuel + 1, l => l.take 64 :: chunks64Aux fuel (l.drop 64)

def chunks64 (l : List Nat) : List (List Nat) := chunks64Aux l.length l

/-- Extend 16 schedule words to 80, one word per step. -/
def sha1Extend : Nat → List Nat → List Nat
  | 0, ws => ws
  | k + 1, ws =>
      let i := ws.length
      let w := rotl 1 ((ws.getD (i - 3) 0) ^^^ (ws.getD (i - 8) 0) ^^^
                       (ws.getD (i - 14) 0) ^^^ (ws.getD (i - 16) 0))
      sha1Extend k (ws ++ [w])

/-- One SHA-1 round on state (a, b, c, d, e) with round index `t`. -/
def sha1Step (t w : Nat) : Nat × Nat × Nat × Nat × Nat → Nat × Nat × Nat × Nat × Nat
  | (a, b, c, d, e) =>
    let f :=
      if t < 20 then (b &&& c) ||| ((b ^^^ 4294967295) &&& d)
      else if t < 40 then b ^^^ c ^^^ d
      else if t < 60 then (b &&& c) ||| (b &&& d) ||| (c &&& d)
      else b ^^^ c ^^^ d
    let k :=
      if t < 20 then 1518500249
      else if t < 40 then 1859775393
      else if t < 60 then 2400959708
      else 3395469782
    (w32 (rotl 5 a + f + e + k + w), a, rotl 30 b, c, d)

def sha1Rounds : Nat → List Nat → Nat × Nat × Nat × Nat × Nat → Nat × Nat × Nat × Nat × Nat
  | _, [], st => st
  | t, w :: ws, st => sha1Rounds (t + 1) ws (sha1Step t w st)

/-- Compress one 64-byte block into the running hash state. -/
def sha1Block (h : Nat × Nat × Nat × Nat × Nat) (block : List Nat) :
    Nat × Nat × Nat × Nat × Nat :=
  let (h0, h1, h2, h3, h4) := h
  let ws := sha1Extend 64 (bytesToWords block)
  let (a, b, c, d, e) := sha1Rounds 0 ws (h0, h1, h2, h3, h4)
  (w32 (h0 + a), w32 (h1 + b), w32 (h2 + c), w32 (h3 + d), w32 (h4 + e))

/-- The SHA-1 digest of a byte list, as five 32-bit words. -/
def sha1Digest (msg : List Nat) : Nat × Nat × Nat × Nat × Nat :=
  (chunks64 (sha1Pad msg)).foldl sha1Block
    (1732584193, 4023233417, 2562383102, 271733878, 3285377520)

/-- One lowercase hex digit. -/
def hexDigit (n : Nat) : Char :=
  if n < 10 then Char.ofNat (48 + n) else Char.ofNat (87 + n)

/-- Eight lowercase hex digits of a 32-bit word. -/
def hex8 (n : Nat) : String :=
  String.mk [hexDigit ((n >>> 28) &&& 15), hexDigit ((n >>> 24) &&& 15),
             hexDigit ((n >>> 20) &&& 15), hexDigit ((n >>> 16) &&& 15),
             hexDigit ((n >>> 12) &&& 15), hexDigit ((n >>> 8) &&& 15),
             hexDigit ((n >>> 4) &&& 15), hexDigit (n &&& 15)]

/-- The 40-character lowercase hex SHA-1 digest, as GLib renders it. -/
def sha1Hex (msg : List Nat) : String :=
  let (h0, h1, h2, h3, h4) := sha1Digest msg
  hex8 h0 ++ hex8 h1 ++ hex8 h2 ++ hex8 h3 ++ hex8 h4

/-- UTF-8 encoding of one character, as the bytes a C `gchar *` holds. -/
def utf8Bytes (c : Char) : List Nat :=
  let n := c.toNat
  if n < 128 then [n]
  else if n < 2048 then [192 ||| (n >>> 6), 128 ||| (n &&& 63)]
  else if n < 65536 then
    [224 ||| (n >>> 12), 128 ||| ((n >>> 6) &&& 63), 128 ||| (n &&& 63)]
  else
    [240 ||| (n >>> 18), 128 ||| ((n >>> 12) &&& 63),
     128 ||| ((n >>> 6) &&& 63), 128 ||| (n &&& 63)]

/-- The UTF-8 bytes of a string (what `strlen`-delimited C data holds). -/
def strBytes (s : String) : List Nat :=
  s.data.foldr (fun c acc => utf8Bytes c ++ acc) []

/-- `compute_checksum` of clipman-item.c:
`g_compute_checksum_for_data (G_CHECKSUM_SHA1, data, len)` over the UTF-8
bytes of a string. -/
def compute_checksum (s : String) : String := sha1Hex (strBytes s)

/-- `compute_checksum` applied to a raw byte buffer (the PNG branch). -/
def compute_checksum_bytes (b : List Nat) : String := sha1Hex b

/-- Validation of the SHA-1 model against the standard test vector
(`SHA1("abc") = a9993e36...`), the digest GLib would return. -/
theorem sha1_model_test_vector :
    compute_checksum "abc" = "a9993e364706816aba3e25717850c26c9cd0d89d" := by
  decide

/-! ## GLib string helpers used by clipman-item.c -/

/-- The characters `g_ascii_isspace` recognises (used by `g_strstrip`). -/
def isGAsciiSpace (c : Char) : Bool :=
  c = ' ' || c = '\t' || c = '\n' || c = '\x0d' || c = '\x0c' || c = '\x0b'

/-- `g_strstrip`: remove leading and trailing ASCII whitespace in place. -/
def g_strstrip (s : String) : String :=
  String.mk (((s.data.dropWhile isGAsciiSpace).reverse.dropWhile isGAsciiSpace).reverse)

/-- `g_path_get_basename`: `"."` for the empty string, `"/"` when the path is
all slashes, otherwise the component after the last `/` once trailing slashes
are removed. -/
def g_path_get_basename (s : String) : String :=
  if s.data = [] then "."
  else
    let rev := s.data.reverse.dropWhile (fun c => c = '/')
    if rev = [] then "/"
    else String.mk (rev.takeWhile (fun c => decide (c ≠ '/'))).reverse

/-- Split a character list at every occurrence of `sep`; `cur` holds the
characters of the current field in reverse (the accumulator of the scan). -/
def splitCharAux (sep : Char) : List Char → List Char → List String
  | cur, [] => [String.mk cur.reverse]
  | cur, c :: rest =>
      if c = sep then String.mk cur.reverse :: splitCharAux sep [] rest
      else splitCharAux sep (c :: cur) rest

/-- `g_strsplit (s, "\n", -1)`: splitting the empty string gives the empty
vector (a GLib special case); otherwise split at every newline. -/
def g_strsplit_nl (s : String) : List String :=
  if s = "" then [] else splitCharAux '\n' [] s.data

/-! ## Content model (clipman-item.c) -/

/-- `ClipmanItemType` of clipman.h: Text, Image, FileList. -/
inductive ClipmanItemType
  | text
  | image
  | files
deriving DecidableEq, Repr

/-- `ClipmanSource`: which selection buffer produced the item. -/
inductive ClipmanSource
  | clipboard
  | primary
deriving DecidableEq, Repr

/-- A gdk-pixbuf raster image, abstracted to its dimensions and pixel data.
`encodable` records whether `gdk_pixbuf_save_to_buffer (... "png" ...)`
succeeds for it (the code has an explicit fallback for failure). -/
structure Pixbuf where
  width : Nat
  height : Nat
  pixels : List Nat
  encodable : Bool
deriving DecidableEq, Repr

/-- Modelled from the spec: the PNG encoder of gdk-pixbuf, a deterministic
lossless re-encoding of the pixel data that can fail. Dimensions followed by
the raster bytes is one such lossless encoding. -/
def pngEncode (p : Pixbuf) : Option (List Nat) :=
  if p.encodable then some (p.width :: p.height :: p.pixels) else none

/-- Modelled from the spec: `gdk_pixbuf_new_from_stream` on a stored PNG
blob, the inverse of `pngEncode`; arbitrary blobs may fail to decode. -/
def pngDecode (blob : List Nat) : Option Pixbuf :=
  match blob with
  | w :: h :: px => some ⟨w, h, px, true⟩
  | _ => none

/-- `struct _ClipmanItem`: the clipboard item entity.  The GObject creation
`GDateTime` field is not modelled: no operation of the program reads it (the
storage timestamps rows from the wall clock instead). -/
structure ClipmanItem where
  id : Int
  type : ClipmanItemType
  source : ClipmanSource
  text : Option String
  pixbuf : Option Pixbuf
  uris : Option (List String)
  checksum : String
  label : String
deriving DecidableEq, Repr

instance : Inhabited ClipmanItem :=
  ⟨⟨0, ClipmanItemType.text, ClipmanSource.clipboard, none, none, none, "", ""⟩⟩

/-- The two byte-level normalisation passes of `create_label`: newline,
carriage return and tab become spaces. -/
def replaceWsChar (c : Char) : Char :=
  if c = '\n' || c = '\x0d' || c = '\t' then ' ' else c

/-- The collapse loop of `create_label`: keep only the first space of every
run of spaces (`prev` is the `prev_space` flag). -/
def collapseSpaces : List Char → Bool → List Char
  | [], _ => []
  | c :: rest, prev =>
      if c = ' ' then
        if prev then collapseSpaces rest true else ' ' :: collapseSpaces rest true
      else c :: collapseSpaces rest false

/-- The normalised text of `create_label` before truncation: whitespace
replaced, space runs collapsed, ends stripped. -/
def labelNormalize (t : String) : String :=
  g_strstrip (String.mk (collapseSpaces (t.data.map replaceWsChar) false))

/-- `create_label (text, max_len)`: `""` for a NULL text; otherwise the
normalised text, truncated at `max_len - 3` characters with `"..."` appended
when its character count exceeds `max_len` (`g_utf8_strlen` counts
characters, `g_utf8_offset_to_pointer` truncates at a character offset). -/
def create_label (text : Option String) (maxLen : Nat) : String :=
  match text with
  | none => ""
  | some t =>
      let normalized := labelNormalize t
      if normalized.data.length > maxLen then
        String.mk (normalized.data.take (maxLen - 3)) ++ "..."
      else normalized

/-- `clipman_item_new_text (text, source)`: NULL text yields no item
(`g_return_val_if_fail (text != NULL, NULL)`); otherwise the checksum is
SHA-1 of the raw text and the label is `create_label (text, 50)`. -/
def clipman_item_new_text (text : Option String) (source : ClipmanSource) :
    Option ClipmanItem :=
  match text with
  | none => none
  | some t =>
      some { id := 0, type := ClipmanItemType.text, source := source,
             text := some t, pixbuf := none, uris := none,
             checksum := compute_checksum t,
             label := create_label (some t) 50 }

/-- `clipman_item_new_image (pixbuf, source)`: NULL pixbuf yields no item;
the checksum is SHA-1 of the PNG bytes, or of the `"WxH"` dimension string
when PNG encoding fails; the label is `"[Image WxH]"`. -/
def clipman_item_new_image (pixbuf : Option Pixbuf) (source : ClipmanSource) :
    Option ClipmanItem :=
  match pixbuf with
  | none => none
  | some p =>
      some { id := 0, type := ClipmanItemType.image, source := source,
             text := none, pixbuf := some p, uris := none,
             checksum :=
               match pngEncode p with
               | some buffer => compute_checksum_bytes buffer
               | none =>
                   compute_checksum (Nat.repr p.width ++ "x" ++ Nat.repr p.height),
             label := "[Image " ++ Nat.repr p.width ++ "x" ++ Nat.repr p.height ++ "]" }

/-- The URI-joining loop of `clipman_item_new_files`: a newline separator is
appended only when the accumulated string is already non-empty. -/
def joinUrisAux (acc : String) : List String → String
  | [] => acc
  | v :: rest =>
      if acc.data.length = 0 then joinUrisAux (acc ++ v) rest
      else joinUrisAux (acc ++ "\n" ++ v) rest

def joinUris (uris : List String) : String := joinUrisAux "" uris

/-- `clipman_item_new_files (uris, source)`: NULL vector yields no item; the
checksum is SHA-1 of the joined URIs, the stored text is the joined string,
and the label is `"[File: basename]"` for exactly one URI, `"[N files]"`
otherwise. -/
def clipman_item_new_files (uris : Option (List String)) (source : ClipmanSource) :
    Option ClipmanItem :=
  match uris with
  | none => none
  | some us =>
      let joined := joinUris us
      some { id := 0, type := ClipmanItemType.files, source := source,
             text := some joined, pixbuf := none, uris := some us,
             checksum := compute_checksum joined,
             label :=
               match us with
               | [u] => "[File: " ++ g_path_get_basename u ++ "]"
               | _ => "[" ++ Nat.repr us.length ++ " files]" }

/-- `clipman_item_equals`: identity is checksum equality
(`g_strcmp0 (self->checksum, other->checksum) == 0`). -/
def clipman_item_equals (self other : ClipmanItem) : Bool :=
  self.checksum == other.checksum

/-- The selection content a buffer can hold after a write
(`gtk_clipboard_set_text` / `gtk_clipboard_set_image`). -/
inductive BufferContent
  | text (s : String)
  | image (p : Pixbuf)
deriving DecidableEq, Repr

/-- `clipman_item_to_clipboard`: the content written into a buffer — the text
for Text items, the pixbuf for Image items, the joined URI text for FileList
items.  The C code passes the stored pointer straight to GTK; items carry
their payload whenever they were built by a constructor or read from a row. -/
def clipman_item_to_clipboard (item : ClipmanItem) : Option BufferContent :=
  match item.type with
  | ClipmanItemType.text => item.text.map BufferContent.text
  | ClipmanItemType.image => item.pixbuf.map BufferContent.image
  | ClipmanItemType.files => item.text.map BufferContent.text

/-! ## Storage engine (clipman-storage.c)

The `items` table is a list of rows in insertion (rowid) order together with
the AUTOINCREMENT counter for the next `id`.  The SQL statements of the file
are constant and well-formed, so `sqlite3_prepare_v2` succeeds; the model is
the success behaviour of each operation. -/

/-- One row of the `items` table. -/
structure Row where
  id : Int
  type : ClipmanItemType
  source : ClipmanSource
  checksum : String
  label : String
  text_content : Option String
  image_data : Option (List Nat)
  timestamp : Int
deriving DecidableEq, Repr

/-- The storage state: rows in rowid order, plus the next AUTOINCREMENT id. -/
structure ClipmanStorage where
  rows : List Row
  nextId : Int
deriving DecidableEq, Repr

/-- What `clipman_storage_add_item` produces: the new state, the item with
its id assigned, the boolean return value, and whether the `"item-added"`
signal was emitted. -/
structure AddResult where
  storage : ClipmanStorage
  item : ClipmanItem
  ok : Bool
  itemAddedEmitted : Bool
deriving DecidableEq, Repr

/-- What `clipman_storage_remove_item` produces. -/
structure RemoveResult where
  storage : ClipmanStorage
  ok : Bool
  itemRemovedEmitted : Bool
deriving DecidableEq, Repr

/-- The row `clipman_storage_add_item` inserts for an item absent from the
table: the payload column by type (text or joined URIs for Text/FileList,
the PNG bytes — or NULL on encoding failure — for Image). -/
def insertedRow (item : ClipmanItem) (id now : Int) : Row :=
  { id := id, type := item.type, source := item.source,
    checksum := item.checksum, label := item.label,
    text_content :=
      if item.type = ClipmanItemType.text || item.type = ClipmanItemType.files then
        item.text
      else none,
    image_data :=
      if item.type = ClipmanItemType.image then
        match item.pixbuf with
        | some p => pngEncode p
        | none => none
      else none,
    timestamp := now }

/-- `clipman_storage_add_item (self, item)`: `SELECT id FROM items WHERE
checksum = ?`; on a hit, `UPDATE items SET timestamp = ? WHERE id = ?`,
assign the found id to the item and return TRUE without emitting a signal;
on a miss, INSERT a fresh row, assign `sqlite3_last_insert_rowid` to the
item, emit `"item-added"` and return TRUE. -/
def clipman_storage_add_item (st : ClipmanStorage) (item : ClipmanItem)
    (now : Int) : AddResult :=
  match st.rows.find? (fun r => r.checksum == item.checksum) with
  | some r =>
      { storage :=
          { st with
            rows := st.rows.map (fun q =>
              if q.id == r.id then { q with timestamp := now } else q) },
        item := { item with id := r.id }, ok := true, itemAddedEmitted := false }
  | none =>
      { storage := { rows := st.rows ++ [insertedRow item st.nextId now],
                     nextId := st.nextId + 1 },
        item := { item with id := st.nextId }, ok := true, itemAddedEmitted := true }

/-- `clipman_storage_remove_item (self, id)`: `DELETE FROM items WHERE
id = ?`.  `sqlite3_step` answers SQLITE_DONE for a DELETE whether or not any
row matched, so the function emits `"item-removed"` and returns TRUE in
either case. -/
def clipman_storage_remove_item (st : ClipmanStorage) (id : Int) : RemoveResult :=
  { storage := { st with rows := st.rows.filter (fun r => !(r.id == id)) },
    ok := true, itemRemovedEmitted := true }

/-- `item_from_row`: rebuild an item from a row through the constructors —
`clipman_item_new_text` on the text column, `clipman_item_new_files` on the
newline-split text column, `clipman_item_new_image` on the decoded blob —
and set its id from the row; NULL payloads and undecodable blobs yield no
item. -/
def item_from_row (r : Row) : Option ClipmanItem :=
  let built : Option ClipmanItem :=
    match r.type with
    | ClipmanItemType.text =>
        match r.text_content with
        | some t => clipman_item_new_text (some t) r.source
        | none => none
    | ClipmanItemType.files =>
        match r.text_content with
        | some t => clipman_item_new_files (some (g_strsplit_nl t)) r.source
        | none => none
    | ClipmanItemType.image =>
        match r.image_data with
        | some blob =>
            if blob.length > 0 then
              match pngDecode blob with
              | some pixbuf => clipman_item_new_image (some pixbuf) r.source
              | none => none
            else none
        | none => none
  built.map (fun item => { item with id := r.id })

/-- Insertion into a timestamp-descending row list (the order `ORDER BY
timestamp DESC` produces). -/
def insertRowByTs (r : Row) : List Row → List Row
  | [] => [r]
  | q :: rest =>
      if r.timestamp ≤ q.timestamp then q :: insertRowByTs r rest
      else r :: q :: rest

/-- The rows sorted by timestamp descending. -/
def sortRowsDesc (rows : List Row) : List Row :=
  rows.foldr insertRowByTs []

/-- The rows `SELECT ... ORDER BY timestamp DESC LIMIT ?` yields in
`clipman_storage_get_items`, with the bound `limit > 0 ? limit : 100`. -/
def selectedRows (st : ClipmanStorage) (limit : Int) : List Row :=
  (sortRowsDesc st.rows).take (if limit > 0 then limit.toNat else 100)

/-- `clipman_storage_get_items (self, limit)`: walk the selected rows and
keep those `item_from_row` can rebuild. -/
def clipman_storage_get_items (st : ClipmanStorage) (limit : Int) :
    List ClipmanItem :=
  (selectedRows st limit).filterMap item_from_row

/-- `clipman_storage_get_by_checksum (self, checksum)`: point lookup of the
row with the given checksum, rebuilt through `item_from_row`. -/
def clipman_storage_get_by_checksum (st : ClipmanStorage) (checksum : String) :
    Option ClipmanItem :=
  match st.rows.find? (fun r => r.checksum == checksum) with
  | some r => item_from_row r
  | none => none

/-- `clipman_storage_clear (self)`: `DELETE FROM items`, `"cleared"` signal,
TRUE. -/
def clipman_storage_clear (st : ClipmanStorage) : ClipmanStorage × Bool :=
  ({ st with rows := [] }, true)

/-! ## The applet's buffer-emptied handler (clipman-applet.c) -/

/-- The two selection buffers GTK exposes
(`GDK_SELECTION_PRIMARY` / `GDK_SELECTION_CLIPBOARD`). -/
structure Buffers where
  primaryBuf : Option BufferContent
  clipboardBuf : Option BufferContent
deriving DecidableEq, Repr

/-- Write content into the buffer a source identifies (the branch of
`on_clipboard_empty` choosing `GDK_SELECTION_PRIMARY` for
`CLIPMAN_SOURCE_PRIMARY` and the general clipboard otherwise). -/
def writeBuffer (bufs : Buffers) (source : ClipmanSource) (content : BufferContent) :
    Buffers :=
  if source = ClipmanSource.primary then { bufs with primaryBuf := some content }
  else { bufs with clipboardBuf := some content }

/-- `on_clipboard_empty (manager, source, data)`: return at once unless the
`keep-content` setting is enabled; fetch `clipman_storage_get_items (storage,
1)`; when it yields an item, write that item into the buffer the source
identifies.  (Items fetched from storage always carry their payload, so the
final fallback arm is unreachable there.) -/
def on_clipboard_empty (keepContent : Bool) (st : ClipmanStorage)
    (source : ClipmanSource) (bufs : Buffers) : Buffers :=
  if !keepContent then bufs
  else
    match clipman_storage_get_items st 1 with
    | [] => bufs
    | item :: _ =>
        match clipman_item_to_clipboard item with
        | some content => writeBuffer bufs source content
        | none => bufs

/-! ## Shared string lemmas -/

theorem str_data_append (s t : String) : (s ++ t).data = s.data ++ t.data := rfl

theorem str_data_eq_nil {s : String} : s.data = [] ↔ s = "" := by
  constructor
  · intro h; exact String.ext h
  · intro h; subst h; rfl

theorem str_append_assoc (a b c : String) : (a ++ b) ++ c = a ++ (b ++ c) := by
  apply String.ext
  show (a.data ++ b.data) ++ c.data = a.data ++ (b.data ++ c.data)
  exact List.append_assoc _ _ _

theorem str_append_empty (a : String) : a ++ "" = a := by
  apply String.ext
  show a.data ++ [] = a.data
  exact List.append_nil _

theorem str_empty_append (a : String) : "" ++ a = a := by
  apply String.ext
  show [] ++ a.data = a.data
  exact List.nil_append _

theorem append_ne_empty_of_left {s : String} (t : String) (h : s.data ≠ []) :
    s ++ t ≠ "" := by
  intro he
  have hd : (s ++ t).data = [] := by rw [he]
  rw [str_data_append] at hd
  exact h (List.append_eq_nil.mp hd).1

theorem append_ne_empty_of_right (s : String) {t : String} (h : t.data ≠ []) :
    s ++ t ≠ "" := by
  intro he
  have hd : (s ++ t).data = [] := by rw [he]
  rw [str_data_append] at hd
  exact h (List.append_eq_nil.mp hd).2

/-! ## Label lemmas (create_label, the constructors' labels) -/

/-- Characters that are not ASCII whitespace are untouched by the
replacement pass. -/
theorem replaceWsChar_of_not_space {c : Char} (h : isGAsciiSpace c = false) :
    replaceWsChar c = c := by
  unfold isGAsciiSpace at h
  simp only [Bool.or_eq_false_iff, decide_eq_false_iff_not] at h
  obtain ⟨⟨⟨⟨⟨hsp, htab⟩, hnl⟩, hcr⟩, hff⟩, hvt⟩ := h
  simp [replaceWsChar, hnl, hcr, htab]

/-- A list without spaces is untouched by the collapse pass. -/
theorem collapseSpaces_of_no_space :
    ∀ (l : List Char), (∀ c ∈ l, c ≠ ' ') → ∀ b, collapseSpaces l b = l := by
  intro l
  induction l with
  | nil => intro _ b; rfl
  | cons c rest ih =>
      intro h b
      unfold collapseSpaces
      rw [if_neg]
      · rw [ih (fun x hx => h x (List.mem_cons_of_mem _ hx))]
      · exact fun hc => h c (List.mem_cons_self _ _) (by exact_mod_cast hc)

/-- A list whose head is not whitespace is untouched by `dropWhile`. -/
theorem dropWhile_of_head_not {l : List Char} (c : Char) (rest : List Char)
    (hl : l = c :: rest) (h : isGAsciiSpace c = false) :
    l.dropWhile isGAsciiSpace = l := by
  subst hl
  simp [List.dropWhile_cons, h]

/-- Text containing no ASCII whitespace at all is left unchanged by the whole
normalisation pipeline of `create_label`. -/
theorem labelNormalize_of_no_space {t : String}
    (h : ∀ c ∈ t.data, isGAsciiSpace c = false) :
    labelNormalize t = t := by
  unfold labelNormalize
  have hmap : t.data.map replaceWsChar = t.data := by
    calc t.data.map replaceWsChar = t.data.map id :=
          List.map_congr_left (fun c hc => replaceWsChar_of_not_space (h c hc))
      _ = t.data := List.map_id _
  rw [hmap]
  have hnospace : ∀ c ∈ t.data, c ≠ ' ' := by
    intro c hc he
    have := h c hc
    rw [he] at this
    simp [isGAsciiSpace] at this
  rw [collapseSpaces_of_no_space t.data hnospace false]
  unfold g_strstrip
  have hdrop : ∀ (l : List Char), (∀ c ∈ l, isGAsciiSpace c = false) →
      l.dropWhile isGAsciiSpace = l := by
    intro l hl
    cases l with
    | nil => rfl
    | cons c rest => exact dropWhile_of_head_not c rest rfl (hl c (List.mem_cons_self _ _))
  rw [hdrop t.data h, hdrop t.data.reverse
    (fun c hc => h c (List.mem_reverse.mp hc)), List.reverse_reverse]

/-- C6 truncation core: when the normalised text exceeds `maxLen` characters
the label is the first `maxLen - 3` characters followed by `"..."`. -/
theorem create_label_of_long {t : String} {maxLen : Nat}
    (h : (labelNormalize t).data.length > maxLen) :
    create_label (some t) maxLen
      = String.mk ((labelNormalize t).data.take (maxLen - 3)) ++ "..." := by
  have h2 : ¬ (labelNormalize t).length ≤ maxLen := Nat.not_le.mpr h
  simp [create_label, h, h2]

theorem create_label_of_short {t : String} {maxLen : Nat}
    (h : ¬ (labelNormalize t).data.length > maxLen) :
    create_label (some t) maxLen = labelNormalize t := by
  have h2 : ¬ maxLen < (labelNormalize t).length := h
  simp [create_label, h, h2]

/-! ## Claims C4, C5, C6 — the content model -/

/-- C4, counterexample: `clipman_item_new_text` called with the empty string
does construct an item (its guard only rejects NULL), contrary to the claim
that no item is produced. -/
theorem claim_C4_counterexample :
    (clipman_item_new_text (some "") ClipmanSource.clipboard).isSome = true ∧
    ((clipman_item_new_text (some "") ClipmanSource.clipboard).getD default).text
      = some "" := by
  decide

/-- C4, amended: `new_text` produces no item exactly when the text is absent
(NULL); every non-NULL text, the empty string included, yields an item. -/
theorem claim_C4_new_text_null_only : ∀ (src : ClipmanSource),
    clipman_item_new_text none src = none ∧
    (∀ t : String, (clipman_item_new_text (some t) src).isSome = true) :=
  fun _ => ⟨rfl, fun _ => rfl⟩

/-- C5, counterexample: the item built from the empty text is successfully
constructed yet carries an empty label, contrary to the claimed invariant
that every constructed item has a non-empty label. -/
theorem claim_C5_counterexample :
    (clipman_item_new_text (some "") ClipmanSource.clipboard).isSome = true ∧
    ((clipman_item_new_text (some "") ClipmanSource.clipboard).getD default).label
      = "" := by
  decide

/-- C5, amended: image and file-list items always have a non-empty label;
a text item's label is non-empty whenever the whitespace-normalised text is
non-empty (for empty or all-whitespace text it is empty). -/
theorem claim_C5_label_nonempty : ∀ (src : ClipmanSource),
    (∀ (p : Pixbuf) (item : ClipmanItem),
        clipman_item_new_image (some p) src = some item → item.label ≠ "") ∧
    (∀ (us : List String) (item : ClipmanItem),
        clipman_item_new_files (some us) src = some item → item.label ≠ "") ∧
    (∀ (t : String) (item : ClipmanItem),
        clipman_item_new_text (some t) src = some item →
        labelNormalize t ≠ "" → item.label ≠ "") := by
  intro src
  refine ⟨?_, ?_, ?_⟩
  · intro p item h
    simp only [clipman_item_new_image, Option.some.injEq] at h
    rw [← h]
    exact append_ne_empty_of_right _ (by decide)
  · intro us item h
    simp only [clipman_item_new_files, Option.some.injEq] at h
    rw [← h]
    match us with
    | [] => exact append_ne_empty_of_right _ (by decide)
    | [u] => exact append_ne_empty_of_right _ (by decide)
    | u :: v :: tail => exact append_ne_empty_of_right _ (by decide)
  · intro t item h hn
    simp only [clipman_item_new_text, Option.some.injEq] at h
    rw [← h]
    show create_label (some t) 50 ≠ ""
    by_cases hl : (labelNormalize t).data.length > 50
    · rw [create_label_of_long hl]
      exact append_ne_empty_of_right _ (by decide)
    · rw [create_label_of_short hl]
      exact hn

/-- C6: a text whose whitespace-normalised form exceeds 50 characters gets a
label of exactly 50 characters ending in `"..."` (47 kept characters plus
the ellipsis); a normalised text of at most 50 characters is kept whole with
no ellipsis appended; in particular 60 identical non-whitespace characters
yield a 50-character label ending in `"..."`. -/
theorem claim_C6_label_truncation : ∀ t : String,
    ((labelNormalize t).data.length > 50 →
      (create_label (some t) 50).data.length = 50 ∧
      ∃ u : String, create_label (some t) 50 = u ++ "..." ∧ u.data.length = 47) ∧
    ((labelNormalize t).data.length ≤ 50 →
      create_label (some t) 50 = labelNormalize t) ∧
    (∀ c : Char, isGAsciiSpace c = false →
      (create_label (some (String.mk (List.replicate 60 c))) 50).data.length = 50 ∧
      ∃ u : String,
        create_label (some (String.mk (List.replicate 60 c))) 50 = u ++ "..." ∧
        u.data.length = 47) := by
  have core : ∀ t : String, (labelNormalize t).data.length > 50 →
      (create_label (some t) 50).data.length = 50 ∧
      ∃ u : String, create_label (some t) 50 = u ++ "..." ∧ u.data.length = 47 := by
    intro t h
    rw [create_label_of_long h]
    constructor
    · show (((labelNormalize t).data.take (50 - 3)) ++ "...".data).length = 50
      rw [List.length_append, List.length_take]
      have hmin : min (50 - 3) (labelNormalize t).data.length = 47 := by omega
      rw [hmin]
      decide
    · refine ⟨String.mk ((labelNormalize t).data.take (50 - 3)), rfl, ?_⟩
      show ((labelNormalize t).data.take (50 - 3)).length = 47
      rw [List.length_take]
      omega
  intro t
  refine ⟨core t, fun h => create_label_of_short (Nat.not_lt.mpr h), ?_⟩
  intro c hc
  have hnorm : labelNormalize (String.mk (List.replicate 60 c))
      = String.mk (List.replicate 60 c) := by
    apply labelNormalize_of_no_space
    intro ch hch
    have he : ch = c := List.eq_of_mem_replicate hch
    rw [he]
    exact hc
  apply core
  rw [hnorm]
  show (List.replicate 60 c).length > 50
  rw [List.length_replicate]
  omega

/-! ## Claims C1, C2, C3 — add_item dedup, the item-added signal, remove_item -/

/-- C1: `add_item` is insert-or-touch.  When a row with the item's checksum
exists, the call returns success, assigns that row's id to the item, keeps
the row count and every row id unchanged (the original id in particular),
updates the matched row's timestamp to now and keeps every other row as it
was.  When no such row exists, it returns success and appends exactly one
new row carrying the next AUTOINCREMENT id — fresh, i.e. distinct from every
existing row id — which is also assigned to the item. -/
theorem claim_C1_add_item_insert_or_touch (st : ClipmanStorage)
    (item : ClipmanItem) (now : Int)
    (hwf : ∀ r ∈ st.rows, r.id < st.nextId) :
    (∀ r, st.rows.find? (fun q => q.checksum == item.checksum) = some r →
      ((clipman_storage_add_item st item now).ok = true ∧
       (clipman_storage_add_item st item now).item.id = r.id ∧
       (clipman_storage_add_item st item now).storage.rows.length = st.rows.length ∧
       ({ r with timestamp := now } : Row)
         ∈ (clipman_storage_add_item st item now).storage.rows ∧
       (∀ q ∈ st.rows, q.id ≠ r.id →
         q ∈ (clipman_storage_add_item st item now).storage.rows) ∧
       (clipman_storage_add_item st item now).storage.rows.map (fun q => q.id)
         = st.rows.map (fun q => q.id))) ∧
    (st.rows.find? (fun q => q.checksum == item.checksum) = none →
      ((clipman_storage_add_item st item now).ok = true ∧
       (clipman_storage_add_item st item now).item.id = st.nextId ∧
       (clipman_storage_add_item st item now).storage.rows.length
         = st.rows.length + 1 ∧
       (∀ q ∈ st.rows, q ∈ (clipman_storage_add_item st item now).storage.rows) ∧
       (∃ nr ∈ (clipman_storage_add_item st item now).storage.rows,
          nr.id = st.nextId ∧ nr.checksum = item.checksum ∧
          nr.label = item.label ∧ nr.timestamp = now ∧
          (∀ q ∈ st.rows, q.id ≠ nr.id) ∧
          (∀ q ∈ (clipman_storage_add_item st item now).storage.rows,
             q = nr ∨ q ∈ st.rows)))) := by
  constructor
  · intro r h
    have hmem : r ∈ st.rows := List.mem_of_find?_eq_some h
    have hred : clipman_storage_add_item st item now =
        { storage :=
            { st with
              rows := st.rows.map (fun q =>
                if q.id == r.id then { q with timestamp := now } else q) },
          item := { item with id := r.id }, ok := true,
          itemAddedEmitted := false } := by
      simp only [clipman_storage_add_item, h]
    rw [hred]
    refine ⟨rfl, rfl, by rw [List.length_map], ?_, ?_, ?_⟩
    · exact List.mem_map.mpr ⟨r, hmem, by simp⟩
    · intro q hq hqid
      refine List.mem_map.mpr ⟨q, hq, ?_⟩
      have : (q.id == r.id) = false := by simp [hqid]
      simp [this]
    · rw [List.map_map]
      apply List.map_congr_left
      intro q _
      show (if q.id == r.id then { q with timestamp := now } else q).id = q.id
      by_cases hq : (q.id == r.id) = true
      · simp [hq]
      · simp [hq]
  · intro h
    have hred : clipman_storage_add_item st item now =
        { storage := { rows := st.rows ++ [insertedRow item st.nextId now],
                       nextId := st.nextId + 1 },
          item := { item with id := st.nextId }, ok := true,
          itemAddedEmitted := true } := by
      simp only [clipman_storage_add_item, h]
    rw [hred]
    refine ⟨rfl, rfl, by simp, ?_, ?_⟩
    · intro q hq
      exact List.mem_append_left _ hq
    · refine ⟨insertedRow item st.nextId now, by simp, rfl, rfl, rfl, rfl, ?_, ?_⟩
      · intro q hq
        show q.id ≠ (insertedRow item st.nextId now).id
        exact Int.ne_of_lt (hwf q hq)
      · intro q hq
        rcases List.mem_append.mp hq with hq1 | hq2
        · exact Or.inr hq1
        · exact Or.inl (List.mem_singleton.mp hq2)

/-- C1, witness: a storage holding one row with checksum `"c"`; touching it
with an item of the same checksum and inserting an item with a different
checksum both behave as stated. -/
theorem claim_C1_add_item_insert_or_touch_witness :
    (∀ r, (ClipmanStorage.mk
        [⟨1, ClipmanItemType.text, ClipmanSource.clipboard, "c", "lab",
          some "x", none, 0⟩] 2).rows.find?
          (fun q => q.checksum == (default : ClipmanItem).checksum) = some r →
      ((clipman_storage_add_item (ClipmanStorage.mk
          [⟨1, ClipmanItemType.text, ClipmanSource.clipboard, "c", "lab",
            some "x", none, 0⟩] 2) default 7).ok = true ∧
       (clipman_storage_add_item (ClipmanStorage.mk
          [⟨1, ClipmanItemType.text, ClipmanSource.clipboard, "c", "lab",
            some "x", none, 0⟩] 2) default 7).item.id = r.id ∧
       (clipman_storage_add_item (ClipmanStorage.mk
          [⟨1, ClipmanItemType.text, ClipmanSource.clipboard, "c", "lab",
            some "x", none, 0⟩] 2) default 7).storage.rows.length
         = (ClipmanStorage.mk
          [⟨1, ClipmanItemType.text, ClipmanSource.clipboard, "c", "lab",
            some "x", none, 0⟩] 2).rows.length ∧
       ({ r with timestamp := 7 } : Row)
         ∈ (clipman_storage_add_item (ClipmanStorage.mk
          [⟨1, ClipmanItemType.text, ClipmanSource.clipboard, "c", "lab",
            some "x", none, 0⟩] 2) default 7).storage.rows ∧
       (∀ q ∈ (ClipmanStorage.mk
          [⟨1, ClipmanItemType.text, ClipmanSource.clipboard, "c", "lab",
            some "x", none, 0⟩] 2).rows, q.id ≠ r.id →
         q ∈ (clipman_storage_add_item (ClipmanStorage.mk
          [⟨1, ClipmanItemType.text, ClipmanSource.clipboard, "c", "lab",
            some "x", none, 0⟩] 2) default 7).storage.rows) ∧
       (clipman_storage_add_item (ClipmanStorage.mk
          [⟨1, ClipmanItemType.text, ClipmanSource.clipboard, "c", "lab",
            some "x", none, 0⟩] 2) default 7).storage.rows.map (fun q => q.id)
         = (ClipmanStorage.mk
          [⟨1, ClipmanItemType.text, ClipmanSource.clipboard, "c", "lab",
            some "x", none, 0⟩] 2).rows.map (fun q => q.id))) ∧
    ((ClipmanStorage.mk
        [⟨1, ClipmanItemType.text, ClipmanSource.clipboard, "c", "lab",
          some "x", none, 0⟩] 2).rows.find?
          (fun q => q.checksum == (default : ClipmanItem).checksum) = none →
      ((clipman_storage_add_item (ClipmanStorage.mk
          [⟨1, ClipmanItemType.text, ClipmanSource.clipboard, "c", "lab",
            some "x", none, 0⟩] 2) default 7).ok = true ∧
       (clipman_storage_add_item (ClipmanStorage.mk
          [⟨1, ClipmanItemType.text, ClipmanSource.clipboard, "c", "lab",
            some "x", none, 0⟩] 2) default 7).item.id = 2 ∧
       (clipman_storage_add_item (ClipmanStorage.mk
          [⟨1, ClipmanItemType.text, ClipmanSource.clipboard, "c", "lab",
            some "x", none, 0⟩] 2) default 7).storage.rows.length
         = (ClipmanStorage.mk
          [⟨1, ClipmanItemType.text, ClipmanSource.clipboard, "c", "lab",
            some "x", none, 0⟩] 2).rows.length + 1 ∧
       (∀ q ∈ (ClipmanStorage.mk
          [⟨1, ClipmanItemType.text, ClipmanSource.clipboard, "c", "lab",
            some "x", none, 0⟩] 2).rows,
         q ∈ (clipman_storage_add_item (ClipmanStorage.mk
          [⟨1, ClipmanItemType.text, ClipmanSource.clipboard, "c", "lab",
            some "x", none, 0⟩] 2) default 7).storage.rows) ∧
       (∃ nr ∈ (clipman_storage_add_item (ClipmanStorage.mk
          [⟨1, ClipmanItemType.text, ClipmanSource.clipboard, "c", "lab",
            some "x", none, 0⟩] 2) default 7).storage.rows,
          nr.id = 2 ∧ nr.checksum = (default : ClipmanItem).checksum ∧
          nr.label = (default : ClipmanItem).label ∧ nr.timestamp = 7 ∧
          (∀ q ∈ (ClipmanStorage.mk
            [⟨1, ClipmanItemType.text, ClipmanSource.clipboard, "c", "lab",
              some "x", none, 0⟩] 2).rows, q.id ≠ nr.id) ∧
          (∀ q ∈ (clipman_storage_add_item (ClipmanStorage.mk
            [⟨1, ClipmanItemType.text, ClipmanSource.clipboard, "c", "lab",
              some "x", none, 0⟩] 2) default 7).storage.rows,
             q = nr ∨ q ∈ (ClipmanStorage.mk
            [⟨1, ClipmanItemType.text, ClipmanSource.clipboard, "c", "lab",
              some "x", none, 0⟩] 2).rows)))) :=
  claim_C1_add_item_insert_or_touch
    (ClipmanStorage.mk
      [⟨1, ClipmanItemType.text, ClipmanSource.clipboard, "c", "lab",
        some "x", none, 0⟩] 2) default 7 (by decide)

/-- C2: the `"item-added"` signal is emitted exactly when no row with the
item's checksum exists before the call — a fresh insert — and never on a
touch (a `find?` hit). -/
theorem claim_C2_item_added_signal :
    ∀ (st : ClipmanStorage) (item : ClipmanItem) (now : Int),
      ((clipman_storage_add_item st item now).itemAddedEmitted = true ↔
        st.rows.find? (fun q => q.checksum == item.checksum) = none) ∧
      (∀ r, st.rows.find? (fun q => q.checksum == item.checksum) = some r →
        (clipman_storage_add_item st item now).itemAddedEmitted = false) := by
  intro st item now
  constructor
  · cases h : st.rows.find? (fun q => q.checksum == item.checksum) with
    | none => simp [clipman_storage_add_item, h]
    | some r => simp [clipman_storage_add_item, h]
  · intro r h
    simp [clipman_storage_add_item, h]

/-- C3, counterexample: removing an id absent from storage (id 5 from the
empty table) leaves the storage unchanged but reports success — the call
returns TRUE (a DELETE matching no row still steps to SQLITE_DONE) — where
the claim demands a failure indicator. -/
theorem claim_C3_counterexample :
    (clipman_storage_remove_item (ClipmanStorage.mk [] 1) 5).ok = true ∧
    (clipman_storage_remove_item (ClipmanStorage.mk [] 1) 5).storage
      = ClipmanStorage.mk [] 1 ∧
    ¬ ((clipman_storage_remove_item (ClipmanStorage.mk [] 1) 5).ok = false) := by
  decide

/-- C3, amended: `remove_item (id)` deletes the row with that id when it
exists and keeps every other row; for an id with no row the storage is left
unchanged; in both cases it reports success and emits `"item-removed"` (the
code never inspects whether the DELETE matched a row). -/
theorem claim_C3_remove_item :
    ∀ (st : ClipmanStorage) (id : Int),
      (clipman_storage_remove_item st id).ok = true ∧
      (clipman_storage_remove_item st id).itemRemovedEmitted = true ∧
      (∀ r ∈ st.rows, r.id ≠ id →
        r ∈ (clipman_storage_remove_item st id).storage.rows) ∧
      (∀ r ∈ (clipman_storage_remove_item st id).storage.rows,
        r ∈ st.rows ∧ r.id ≠ id) ∧
      ((∀ r ∈ st.rows, r.id ≠ id) →
        (clipman_storage_remove_item st id).storage = st) := by
  intro st id
  refine ⟨rfl, rfl, ?_, ?_, ?_⟩
  · intro r hr hrid
    show r ∈ st.rows.filter (fun q => !(q.id == id))
    rw [List.mem_filter]
    exact ⟨hr, by simp [hrid]⟩
  · intro r hr
    have hr' : r ∈ st.rows.filter (fun q => !(q.id == id)) := hr
    rw [List.mem_filter] at hr'
    refine ⟨hr'.1, ?_⟩
    have := hr'.2
    simp only [Bool.not_eq_true'] at this
    exact fun he => by
      rw [he] at this
      simp at this
  · intro hall
    show ({ st with rows := st.rows.filter (fun q => !(q.id == id)) }
           : ClipmanStorage) = st
    have : st.rows.filter (fun q => !(q.id == id)) = st.rows := by
      rw [List.filter_eq_self]
      intro r hr
      simp [hall r hr]
    rw [this]

/-! ## Claim C7 — get_items ordering -/

/-- Membership in an insertion is membership in the inserted row or the
list. -/
theorem mem_insertRowByTs {x r : Row} :
    ∀ {l : List Row}, x ∈ insertRowByTs r l → x = r ∨ x ∈ l := by
  intro l
  induction l with
  | nil =>
      intro h
      rcases List.mem_singleton.mp h with h'
      exact Or.inl h'
  | cons q rest ih =>
      intro h
      unfold insertRowByTs at h
      by_cases hc : r.timestamp ≤ q.timestamp
      · rw [if_pos hc] at h
        rcases List.mem_cons.mp h with h' | h'
        · exact Or.inr (h' ▸ List.mem_cons_self _ _)
        · rcases ih h' with h'' | h''
          · exact Or.inl h''
          · exact Or.inr (List.mem_cons_of_mem _ h'')
      · rw [if_neg hc] at h
        rcases List.mem_cons.mp h with h' | h'
        · exact Or.inl h'
        · exact Or.inr h'

/-- Inserting into a timestamp-descending list keeps it descending. -/
theorem pairwise_insertRowByTs (r : Row) :
    ∀ {l : List Row},
      l.Pairwise (fun a b => b.timestamp ≤ a.timestamp) →
      (insertRowByTs r l).Pairwise (fun a b => b.timestamp ≤ a.timestamp) := by
  intro l
  induction l with
  | nil => intro _; simp [insertRowByTs]
  | cons q rest ih =>
      intro h
      rcases List.pairwise_cons.mp h with ⟨hq, hrest⟩
      unfold insertRowByTs
      by_cases hc : r.timestamp ≤ q.timestamp
      · rw [if_pos hc]
        refine List.pairwise_cons.mpr ⟨?_, ih hrest⟩
        intro x hx
        rcases mem_insertRowByTs hx with hx' | hx'
        · rw [hx']; exact hc
        · exact hq x hx'
      · rw [if_neg hc]
        have hrq : q.timestamp ≤ r.timestamp := le_of_lt (lt_of_not_le hc)
        refine List.pairwise_cons.mpr ⟨?_, h⟩
        intro x hx
        rcases List.mem_cons.mp hx with hx' | hx'
        · rw [hx']; exact hrq
        · exact Int.le_trans (hq x hx') hrq

/-- The sort used to model `ORDER BY timestamp DESC` is descending. -/
theorem sortRowsDesc_sorted :
    ∀ (l : List Row),
      (sortRowsDesc l).Pairwise (fun a b => b.timestamp ≤ a.timestamp) := by
  intro l
  induction l with
  | nil => simp [sortRowsDesc]
  | cons r rest ih =>
      show (insertRowByTs r (sortRowsDesc rest)).Pairwise _
      exact pairwise_insertRowByTs r ih

/-- The sort only rearranges: every sorted row is a row of the table. -/
theorem mem_of_mem_sortRowsDesc {x : Row} :
    ∀ {l : List Row}, x ∈ sortRowsDesc l → x ∈ l := by
  intro l
  induction l with
  | nil => intro h; exact absurd h (List.not_mem_nil x)
  | cons r rest ih =>
      intro h
      rcases mem_insertRowByTs h with h' | h'
      · exact h' ▸ List.mem_cons_self _ _
      · exact List.mem_cons_of_mem _ (ih h')

/-- The scenario items of the spec's history-ordering property: texts "A",
"B", "C" as the constructors build them. -/
def itemA : ClipmanItem :=
  (clipman_item_new_text (some "A") ClipmanSource.clipboard).getD default

def itemB : ClipmanItem :=
  (clipman_item_new_text (some "B") ClipmanSource.clipboard).getD default

def itemC : ClipmanItem :=
  (clipman_item_new_text (some "C") ClipmanSource.clipboard).getD default

/-- The storage after adding A at t=1, B at t=2, C at t=3 to an empty
table. -/
def storageABC : ClipmanStorage :=
  (clipman_storage_add_item
    (clipman_storage_add_item
      (clipman_storage_add_item (ClipmanStorage.mk [] 1) itemA 1).storage
      itemB 2).storage
    itemC 3).storage

/-- `storageABC` after re-adding A at t=4 (a touch moving A to the top). -/
def storageABCA : ClipmanStorage :=
  (clipman_storage_add_item storageABC itemA 4).storage

/-- C7: `get_items (limit)` walks the rows in timestamp-descending order
(newest first), reads at most `limit` rows when `limit > 0` and at most the
default cap of 100 otherwise, and every row it reads is a stored row; on the
spec's scenario — A at t=1, B at t=2, C at t=3 — `get_items (10)` returns
[C, B, A], and re-adding A at t=4 moves it to the front: [A, C, B]. -/
theorem claim_C7_get_items_ordering :
    (∀ (st : ClipmanStorage) (limit : Int),
      (selectedRows st limit).Pairwise (fun a b => b.timestamp ≤ a.timestamp) ∧
      (selectedRows st limit).length
        ≤ (if limit > 0 then limit.toNat else 100) ∧
      (clipman_storage_get_items st limit).length
        ≤ (if limit > 0 then limit.toNat else 100) ∧
      (∀ r ∈ selectedRows st limit, r ∈ st.rows) ∧
      clipman_storage_get_items st limit
        = (selectedRows st limit).filterMap item_from_row) ∧
    ((clipman_storage_get_items storageABC 10).map (fun i => i.text)
        = [some "C", some "B", some "A"] ∧
     (clipman_storage_get_items storageABCA 10).map (fun i => i.text)
        = [some "A", some "C", some "B"]) := by
  constructor
  · intro st limit
    refine ⟨?_, ?_, ?_, ?_, rfl⟩
    · exact List.Pairwise.sublist (List.take_sublist _ _) (sortRowsDesc_sorted st.rows)
    · show ((sortRowsDesc st.rows).take _).length ≤ _
      rw [List.length_take]
      exact Nat.min_le_left _ _
    · calc (clipman_storage_get_items st limit).length
          ≤ (selectedRows st limit).length :=
            List.length_filterMap_le _ _
        _ ≤ _ := by
            show ((sortRowsDesc st.rows).take _).length ≤ _
            rw [List.length_take]
            exact Nat.min_le_left _ _
    · intro r hr
      exact mem_of_mem_sortRowsDesc (List.mem_of_mem_take hr)
  · constructor
    · decide
    · decide

/-! ## Claim C10 — file-list vs text checksums -/

/-- The tail of a separator-join: every element preceded by a newline. -/
def tailJoin : List String → String
  | [] => ""
  | v :: vs => "\n" ++ v ++ tailJoin vs

/-- Modelled from the spec's words, for the refinement comparison: "the
newline-joined URI string" — the URIs interleaved with single newlines. -/
def newlineJoined : List String → String
  | [] => ""
  | [u] => u
  | u :: rest => u ++ "\n" ++ newlineJoined rest

theorem joinUrisAux_of_acc_nonempty :
    ∀ (l : List String) (acc : String), acc.data ≠ [] →
      joinUrisAux acc l = acc ++ tailJoin l := by
  intro l
  induction l with
  | nil =>
      intro acc _
      exact (str_append_empty acc).symm
  | cons v vs ih =>
      intro acc h
      have hlen : ¬ acc.data.length = 0 := by
        intro h0
        exact h (List.length_eq_zero.mp h0)
      have hne : ((acc ++ "\n") ++ v).data ≠ [] := by
        rw [str_data_append, str_data_append]
        intro hnil
        have := (List.append_eq_nil.mp (List.append_eq_nil.mp hnil).1).2
        exact absurd this (by decide)
      show joinUrisAux acc (v :: vs) = acc ++ tailJoin (v :: vs)
      unfold joinUrisAux
      rw [if_neg hlen, ih _ hne]
      show ((acc ++ "\n") ++ v) ++ tailJoin vs = acc ++ (("\n" ++ v) ++ tailJoin vs)
      rw [str_append_assoc, str_append_assoc, str_append_assoc]

theorem newlineJoined_eq_tailJoin :
    ∀ (rest : List String) (u : String),
      newlineJoined (u :: rest) = u ++ tailJoin rest := by
  intro rest
  induction rest with
  | nil =>
      intro u
      exact (str_append_empty u).symm
  | cons v vs ih =>
      intro u
      show u ++ "\n" ++ newlineJoined (v :: vs) = u ++ tailJoin (v :: vs)
      rw [ih v]
      show (u ++ "\n") ++ (v ++ tailJoin vs) = u ++ (("\n" ++ v) ++ tailJoin vs)
      rw [str_append_assoc, ← str_append_assoc "\n" v (tailJoin vs)]

/-- The code's join loop agrees with the plain newline-join whenever the
first URI is non-empty (a leading empty URI is swallowed by the loop, which
only emits a separator once the accumulator is non-empty). -/
theorem joinUris_eq_newlineJoined {u : String} (rest : List String)
    (hu : u ≠ "") : joinUris (u :: rest) = newlineJoined (u :: rest) := by
  have hdata : u.data ≠ [] := fun h => hu (str_data_eq_nil.mp h)
  have h1 : joinUris (u :: rest) = joinUrisAux ("" ++ u) rest := rfl
  rw [h1, str_empty_append, joinUrisAux_of_acc_nonempty rest u hdata,
    newlineJoined_eq_tailJoin]

/-- A found checksum makes `add_item` a touch: the row count is unchanged
and no `"item-added"` signal is emitted. -/
theorem add_item_touch_of_found (st : ClipmanStorage) (i : ClipmanItem)
    (now : Int) (r : Row)
    (h : st.rows.find? (fun q => q.checksum == i.checksum) = some r) :
    (clipman_storage_add_item st i now).storage.rows.length = st.rows.length ∧
    (clipman_storage_add_item st i now).itemAddedEmitted = false := by
  have hred : clipman_storage_add_item st i now =
      { storage :=
          { st with
            rows := st.rows.map (fun q =>
              if q.id == r.id then { q with timestamp := now } else q) },
        item := { i with id := r.id }, ok := true,
        itemAddedEmitted := false } := by
    simp only [clipman_storage_add_item, h]
  rw [hred]
  exact ⟨List.length_map _ _, rfl⟩

/-- After any `add_item`, a row with the added item's checksum is present
and found by the dedup lookup. -/
theorem add_item_checksum_found (st : ClipmanStorage) (i : ClipmanItem)
    (now : Int) :
    ∃ r, (clipman_storage_add_item st i now).storage.rows.find?
        (fun q => q.checksum == i.checksum) = some r := by
  cases h : st.rows.find? (fun q => q.checksum == i.checksum) with
  | some r =>
      have hred : (clipman_storage_add_item st i now).storage.rows
          = st.rows.map (fun q =>
              if q.id == r.id then { q with timestamp := now } else q) := by
        simp only [clipman_storage_add_item, h]
      rw [hred, List.find?_map]
      have hpf : ((fun q : Row => q.checksum == i.checksum) ∘
            (fun q : Row =>
              if q.id == r.id then { q with timestamp := now } else q))
          = (fun q : Row => q.checksum == i.checksum) := by
        funext q
        show ((if q.id == r.id then { q with timestamp := now } else q).checksum
            == i.checksum) = (q.checksum == i.checksum)
        by_cases hc : (q.id == r.id) = true
        · rw [if_pos hc]
        · rw [if_neg hc]
      rw [hpf, h]
      exact ⟨_, rfl⟩
  | none =>
      have hred : (clipman_storage_add_item st i now).storage.rows
          = st.rows ++ [insertedRow i st.nextId now] := by
        simp only [clipman_storage_add_item, h]
      rw [hred, List.find?_append, h]
      refine ⟨insertedRow i st.nextId now, ?_⟩
      show Option.or none (List.find? _ [insertedRow i st.nextId now]) = _
      have hp : ((insertedRow i st.nextId now).checksum == i.checksum) = true :=
        beq_self_eq_true _
      simp [List.find?, hp]

/-- C10, counterexample: for the URI list `["", "a"]` the code's join loop
swallows the leading empty URI (it joins to `"a"`, not `"\na"`), so the
FileList item's checksum differs from the Text item's checksum over the
newline-joined string, `equals` rejects the pair, and storage keeps two
rows instead of deduplicating. -/
theorem claim_C10_counterexample :
    ((clipman_item_new_files (some ["", "a"]) ClipmanSource.clipboard).getD
        default).checksum
      ≠ ((clipman_item_new_text (some (newlineJoined ["", "a"]))
          ClipmanSource.clipboard).getD default).checksum ∧
    clipman_item_equals
      ((clipman_item_new_files (some ["", "a"]) ClipmanSource.clipboard).getD
        default)
      ((clipman_item_new_text (some (newlineJoined ["", "a"]))
          ClipmanSource.clipboard).getD default) = false ∧
    (clipman_storage_add_item
      (clipman_storage_add_item (ClipmanStorage.mk [] 1)
        ((clipman_item_new_text (some (newlineJoined ["", "a"]))
            ClipmanSource.clipboard).getD default) 0).storage
      ((clipman_item_new_files (some ["", "a"]) ClipmanSource.clipboard).getD
        default) 1).storage.rows.length = 2 := by
  decide

/-- C10, amended: for every URI list whose first URI is non-empty, the
FileList item's checksum equals the checksum of the Text item built over
the newline-joined URI string, `equals` accepts the pair, and adding the
FileList item after the Text item touches the existing row instead of
inserting (row count unchanged, no item-added signal). -/
theorem claim_C10_files_text_checksum (u : String) (rest : List String)
    (src src2 : ClipmanSource) (fi ti : ClipmanItem)
    (hu : u ≠ "")
    (hfi : clipman_item_new_files (some (u :: rest)) src = some fi)
    (hti : clipman_item_new_text (some (newlineJoined (u :: rest))) src2
        = some ti) :
    fi.checksum = ti.checksum ∧
    clipman_item_equals fi ti = true ∧
    (∀ (st : ClipmanStorage) (now nowB : Int),
      (clipman_storage_add_item
        (clipman_storage_add_item st ti now).storage fi nowB).storage.rows.length
        = (clipman_storage_add_item st ti now).storage.rows.length ∧
      (clipman_storage_add_item
        (clipman_storage_add_item st ti now).storage fi nowB).itemAddedEmitted
        = false) := by
  simp only [clipman_item_new_files, Option.some.injEq] at hfi
  simp only [clipman_item_new_text, Option.some.injEq] at hti
  have hcheq : fi.checksum = ti.checksum := by
    rw [← hfi, ← hti]
    show compute_checksum (joinUris (u :: rest))
        = compute_checksum (newlineJoined (u :: rest))
    rw [joinUris_eq_newlineJoined rest hu]
  refine ⟨hcheq, ?_, ?_⟩
  · show (fi.checksum == ti.checksum) = true
    rw [hcheq]
    exact beq_self_eq_true _
  · intro st now nowB
    obtain ⟨r, hr⟩ := add_item_checksum_found st ti now
    have hfind : (clipman_storage_add_item st ti now).storage.rows.find?
        (fun q => q.checksum == fi.checksum) = some r := by
      have : (fun q : Row => q.checksum == fi.checksum)
          = (fun q : Row => q.checksum == ti.checksum) := by
        funext q
        rw [hcheq]
      rw [this]
      exact hr
    exact add_item_touch_of_found _ fi nowB r hfind

/-- C10, witness: two concrete file URIs; building the FileList item and the
Text item over their newline-join gives equal checksums, `equals` accepts,
and the second add is a touch. -/
theorem claim_C10_files_text_checksum_witness :
    ((clipman_item_new_files (some ["file:///a", "file:///b"])
        ClipmanSource.clipboard).getD default).checksum
      = ((clipman_item_new_text
          (some (newlineJoined ["file:///a", "file:///b"]))
          ClipmanSource.clipboard).getD default).checksum ∧
    clipman_item_equals
      ((clipman_item_new_files (some ["file:///a", "file:///b"])
          ClipmanSource.clipboard).getD default)
      ((clipman_item_new_text
          (some (newlineJoined ["file:///a", "file:///b"]))
          ClipmanSource.clipboard).getD default) = true ∧
    (∀ (st : ClipmanStorage) (now nowB : Int),
      (clipman_storage_add_item
        (clipman_storage_add_item st
          ((clipman_item_new_text
              (some (newlineJoined ["file:///a", "file:///b"]))
              ClipmanSource.clipboard).getD default) now).storage
        ((clipman_item_new_files (some ["file:///a", "file:///b"])
            ClipmanSource.clipboard).getD default) nowB).storage.rows.length
        = (clipman_storage_add_item st
            ((clipman_item_new_text
                (some (newlineJoined ["file:///a", "file:///b"]))
                ClipmanSource.clipboard).getD default) now).storage.rows.length ∧
      (clipman_storage_add_item
        (clipman_storage_add_item st
          ((clipman_item_new_text
              (some (newlineJoined ["file:///a", "file:///b"]))
              ClipmanSource.clipboard).getD default) now).storage
        ((clipman_item_new_files (some ["file:///a", "file:///b"])
            ClipmanSource.clipboard).getD default) nowB).itemAddedEmitted
        = false) :=
  claim_C10_files_text_checksum "file:///a" ["file:///b"]
    ClipmanSource.clipboard ClipmanSource.clipboard
    ((clipman_item_new_files (some ["file:///a", "file:///b"])
        ClipmanSource.clipboard).getD default)
    ((clipman_item_new_text (some (newlineJoined ["file:///a", "file:///b"]))
        ClipmanSource.clipboard).getD default)
    (by decide) rfl rfl

/-! ## Claim C8 — add_item / get_by_checksum round trip -/

/-- Scanning past separator-free characters only moves them (reversed) into
the current field. -/
theorem splitCharAux_no_sep :
    ∀ (l cur tail : List Char), (∀ c ∈ l, c ≠ '\n') →
      splitCharAux '\n' cur (l ++ tail)
        = splitCharAux '\n' (l.reverse ++ cur) tail := by
  intro l
  induction l with
  | nil =>
      intro cur tail _
      rfl
  | cons c cs ih =>
      intro cur tail h
      have hc : c ≠ '\n' := h c (List.mem_cons_self _ _)
      have harr : (c :: cs).reverse ++ cur = cs.reverse ++ (c :: cur) := by
        rw [List.reverse_cons, List.append_assoc, List.singleton_append]
      show (if c = '\n'
          then String.mk cur.reverse :: splitCharAux '\n' [] (cs ++ tail)
          else splitCharAux '\n' (c :: cur) (cs ++ tail))
        = splitCharAux '\n' ((c :: cs).reverse ++ cur) tail
      rw [if_neg hc, harr,
        ih (c :: cur) tail (fun x hx => h x (List.mem_cons_of_mem _ hx))]

/-- Splitting the tail-join of newline-free fields recovers the fields,
prefixed by the current accumulated field. -/
theorem splitCharAux_tailJoin :
    ∀ (vs : List String) (cur : List Char),
      (∀ v ∈ vs, ∀ c ∈ v.data, c ≠ '\n') →
      splitCharAux '\n' cur (tailJoin vs).data
        = String.mk cur.reverse :: vs := by
  intro vs
  induction vs with
  | nil =>
      intro cur _
      rfl
  | cons v vs' ih =>
      intro cur h
      have hdata : (tailJoin (v :: vs')).data
          = '\n' :: (v.data ++ (tailJoin vs').data) := rfl
      rw [hdata]
      show String.mk cur.reverse
          :: splitCharAux '\n' [] (v.data ++ (tailJoin vs').data)
        = String.mk cur.reverse :: v :: vs'
      rw [splitCharAux_no_sep v.data [] (tailJoin vs').data
            (h v (List.mem_cons_self _ _)),
          List.append_nil,
          ih v.data.reverse (fun x hx => h x (List.mem_cons_of_mem _ hx)),
          List.reverse_reverse]

/-- Splitting the code's joined URI string gives back the URI list whenever
the first URI is non-empty and no URI contains a newline. -/
theorem g_strsplit_joinUris {u : String} {rest : List String}
    (hu : u ≠ "") (hn : ∀ v ∈ u :: rest, ∀ c ∈ v.data, c ≠ '\n') :
    g_strsplit_nl (joinUris (u :: rest)) = u :: rest := by
  have hdata : u.data ≠ [] := fun h => hu (str_data_eq_nil.mp h)
  rw [joinUris_eq_newlineJoined rest hu, newlineJoined_eq_tailJoin]
  have hne : u ++ tailJoin rest ≠ "" := append_ne_empty_of_left _ hdata
  unfold g_strsplit_nl
  rw [if_neg hne]
  show splitCharAux '\n' [] (u.data ++ (tailJoin rest).data) = u :: rest
  rw [splitCharAux_no_sep u.data [] (tailJoin rest).data
        (hn u (List.mem_cons_self _ _)),
      List.append_nil,
      splitCharAux_tailJoin rest u.data.reverse
        (fun v hv => hn v (List.mem_cons_of_mem _ hv)),
      List.reverse_reverse]

/-- A FileList row whose stored text splits back to the original URI list is
rebuilt by `item_from_row` through `clipman_item_new_files` on that list. -/
theorem item_from_row_files_row (r : Row) (us : List String)
    (htype : r.type = ClipmanItemType.files)
    (htext : r.text_content = some (joinUris us))
    (hsplit : g_strsplit_nl (joinUris us) = us) :
    item_from_row r = (clipman_item_new_files (some us) r.source).map
      (fun it : ClipmanItem => { it with id := r.id }) := by
  obtain ⟨rid, rtype, rsource, rchk, rlab, rtext, rimg, rts⟩ := r
  simp only at htype htext
  subst htype
  subst htext
  have h0 : item_from_row
      ⟨rid, ClipmanItemType.files, rsource, rchk, rlab,
       some (joinUris us), rimg, rts⟩
      = (clipman_item_new_files (some (g_strsplit_nl (joinUris us))) rsource).map
          (fun it : ClipmanItem => { it with id := rid }) := rfl
  rw [h0, hsplit]

/-- C8, amended: an item accepted as a fresh insert (its checksum not yet
stored) — built by `new_text`, by `new_files` from URIs that are
newline-free with a non-empty first URI, or by `new_image` from a pixbuf
whose PNG encoding succeeds — is returned by a subsequent
`get_by_checksum (item.checksum)` with the same kind, payload (text, URI
list, pixbuf) and label, carrying the id the insert assigned. -/
theorem claim_C8_roundtrip (st : ClipmanStorage) (item : ClipmanItem)
    (now : Int)
    (hfresh : st.rows.find? (fun r => r.checksum == item.checksum) = none)
    (hctor :
      (∃ t src, clipman_item_new_text (some t) src = some item) ∨
      (∃ us src, (us = [] ∨ ∃ u rest, us = u :: rest ∧ u ≠ "") ∧
        (∀ v ∈ us, ∀ c ∈ v.data, c ≠ '\n') ∧
        clipman_item_new_files (some us) src = some item) ∨
      (∃ p src, p.encodable = true ∧
        clipman_item_new_image (some p) src = some item)) :
    ∃ j, clipman_storage_get_by_checksum
        (clipman_storage_add_item st item now).storage item.checksum = some j ∧
      j.id = st.nextId ∧ j.type = item.type ∧ j.text = item.text ∧
      j.uris = item.uris ∧ j.pixbuf = item.pixbuf ∧ j.label = item.label ∧
      j.checksum = item.checksum := by
  have hred : (clipman_storage_add_item st item now).storage.rows
      = st.rows ++ [insertedRow item st.nextId now] := by
    simp only [clipman_storage_add_item, hfresh]
  have hfind : (st.rows ++ [insertedRow item st.nextId now]).find?
      (fun r => r.checksum == item.checksum)
      = some (insertedRow item st.nextId now) := by
    rw [List.find?_append, hfresh]
    show Option.or none _ = _
    have hp : ((insertedRow item st.nextId now).checksum == item.checksum)
        = true := beq_self_eq_true _
    simp [List.find?, hp]
  have hlookup : clipman_storage_get_by_checksum
      (clipman_storage_add_item st item now).storage item.checksum
      = item_from_row (insertedRow item st.nextId now) := by
    show (match (clipman_storage_add_item st item now).storage.rows.find?
        (fun r => r.checksum == item.checksum) with
      | some r => item_from_row r
      | none => none) = _
    rw [hred, hfind]
  rw [hlookup]
  rcases hctor with ⟨t, src, hmk⟩ | ⟨us, src, hshape, hnl, hmk⟩ | ⟨p, src, hp, hmk⟩
  · simp only [clipman_item_new_text, Option.some.injEq] at hmk
    subst hmk
    exact ⟨_, rfl, rfl, rfl, rfl, rfl, rfl, rfl, rfl⟩
  · simp only [clipman_item_new_files, Option.some.injEq] at hmk
    subst hmk
    have hsplit : g_strsplit_nl (joinUris us) = us := by
      rcases hshape with hnil | ⟨u, rest, hcons, hu⟩
      · subst hnil
        rfl
      · subst hcons
        exact g_strsplit_joinUris hu hnl
    rw [item_from_row_files_row _ us rfl rfl hsplit]
    exact ⟨_, rfl, rfl, rfl, rfl, rfl, rfl, rfl, rfl⟩
  · simp only [clipman_item_new_image, Option.some.injEq] at hmk
    subst hmk
    obtain ⟨w, hgt, px, enc⟩ := p
    simp only at hp
    subst hp
    exact ⟨_, rfl, rfl, rfl, rfl, rfl, rfl, rfl, rfl⟩

/-- C8, counterexample: a FileList item over the single URI `"a\nb"` (a URI
containing a newline) is accepted by `add_item`, but `get_by_checksum`
rebuilds the row by splitting the stored joined text on newlines: it returns
an item whose URI list is `["a", "b"]` and whose label is `"[2 files]"`,
not the original payload `["a\nb"]` and label `"[File: a\nb]"`. -/
theorem claim_C8_counterexample :
    (clipman_storage_add_item (ClipmanStorage.mk [] 1)
      ((clipman_item_new_files (some ["a\nb"]) ClipmanSource.clipboard).getD
        default) 0).ok = true ∧
    ((clipman_item_new_files (some ["a\nb"]) ClipmanSource.clipboard).getD
      default).uris = some ["a\nb"] ∧
    ((clipman_item_new_files (some ["a\nb"]) ClipmanSource.clipboard).getD
      default).label = "[File: a\nb]" ∧
    ((clipman_storage_get_by_checksum
        (clipman_storage_add_item (ClipmanStorage.mk [] 1)
          ((clipman_item_new_files (some ["a\nb"])
            ClipmanSource.clipboard).getD default) 0).storage
        ((clipman_item_new_files (some ["a\nb"])
          ClipmanSource.clipboard).getD default).checksum).map
      (fun j => j.uris)) = some (some ["a", "b"]) ∧
    ((clipman_storage_get_by_checksum
        (clipman_storage_add_item (ClipmanStorage.mk [] 1)
          ((clipman_item_new_files (some ["a\nb"])
            ClipmanSource.clipboard).getD default) 0).storage
        ((clipman_item_new_files (some ["a\nb"])
          ClipmanSource.clipboard).getD default).checksum).map
      (fun j => j.label)) = some "[2 files]" := by
  decide

/-- The concrete item of the C8 witness. -/
def itemHello : ClipmanItem :=
  (clipman_item_new_text (some "hello") ClipmanSource.clipboard).getD default

/-- C8, witness: adding the text item `"hello"` to the empty storage and
looking its checksum up returns an item of the same kind, payload and
label. -/
theorem claim_C8_roundtrip_witness :
    ∃ j, clipman_storage_get_by_checksum
        (clipman_storage_add_item (ClipmanStorage.mk [] 1) itemHello 0).storage
        itemHello.checksum = some j ∧
      j.id = (ClipmanStorage.mk [] 1).nextId ∧ j.type = itemHello.type ∧
      j.text = itemHello.text ∧ j.uris = itemHello.uris ∧
      j.pixbuf = itemHello.pixbuf ∧ j.label = itemHello.label ∧
      j.checksum = itemHello.checksum :=
  claim_C8_roundtrip (ClipmanStorage.mk [] 1) itemHello 0 rfl
    (Or.inl ⟨"hello", ClipmanSource.clipboard, rfl⟩)

/-! ## Claim C9 — buffer-emptied restore (on_clipboard_empty) -/

/-- Every item read back from a row carries its payload, so
`clipman_item_to_clipboard` always has content to write for it. -/
theorem to_clipboard_of_item_from_row {r : Row} {item : ClipmanItem}
    (h : item_from_row r = some item) :
    ∃ content, clipman_item_to_clipboard item = some content := by
  obtain ⟨rid, rtype, rsource, rchk, rlab, rtext, rimg, rts⟩ := r
  cases rtype with
  | text =>
      cases rtext with
      | none => simp [item_from_row] at h
      | some t =>
          simp [item_from_row, clipman_item_new_text] at h
          subst h
          exact ⟨_, rfl⟩
  | files =>
      cases rtext with
      | none => simp [item_from_row] at h
      | some t =>
          simp [item_from_row, clipman_item_new_files] at h
          subst h
          exact ⟨_, rfl⟩
  | image =>
      cases rimg with
      | none => simp [item_from_row] at h
      | some blob =>
          cases blob with
          | nil => simp [item_from_row] at h
          | cons b0 btail =>
              cases btail with
              | nil => simp [item_from_row, pngDecode] at h
              | cons b1 brest =>
                  simp [item_from_row, pngDecode, clipman_item_new_image] at h
                  subst h
                  exact ⟨_, rfl⟩

/-- C9, amended: with `keep-content` disabled a buffer-emptied event writes
nothing; with it enabled, when `get_items (1)` yields no item (empty table,
or a most-recent row that cannot be rebuilt) nothing is written, and when it
yields the most recently stored item, that item's content is written into
the buffer the source identifies — the primary selection for
`CLIPMAN_SOURCE_PRIMARY`, the general clipboard otherwise. -/
theorem claim_C9_buffer_emptied_restore :
    ∀ (st : ClipmanStorage) (source : ClipmanSource) (bufs : Buffers),
      on_clipboard_empty false st source bufs = bufs ∧
      (clipman_storage_get_items st 1 = [] →
        on_clipboard_empty true st source bufs = bufs) ∧
      (∀ item rest, clipman_storage_get_items st 1 = item :: rest →
        ∃ content, clipman_item_to_clipboard item = some content ∧
          on_clipboard_empty true st source bufs
            = writeBuffer bufs source content ∧
          (source = ClipmanSource.primary →
            on_clipboard_empty true st source bufs
              = { bufs with primaryBuf := some content }) ∧
          (source = ClipmanSource.clipboard →
            on_clipboard_empty true st source bufs
              = { bufs with clipboardBuf := some content })) := by
  intro st source bufs
  refine ⟨rfl, ?_, ?_⟩
  · intro h
    simp [on_clipboard_empty, h]
  · intro item rest h
    have hmem : item ∈ clipman_storage_get_items st 1 := by
      rw [h]
      exact List.mem_cons_self _ _
    obtain ⟨r, _, hfr⟩ := List.mem_filterMap.mp hmem
    obtain ⟨content, hc⟩ := to_clipboard_of_item_from_row hfr
    refine ⟨content, hc, ?_, ?_, ?_⟩
    · simp [on_clipboard_empty, h, hc]
    · intro hs
      subst hs
      simp [on_clipboard_empty, h, hc, writeBuffer]
    · intro hs
      subst hs
      simp [on_clipboard_empty, h, hc, writeBuffer]

/-- C9, counterexample: an image whose PNG encoding fails is accepted by
`add_item` (with a dimension-string checksum and a NULL blob), so storage
holds one item; yet with `keep-content` enabled a buffer-emptied event
writes nothing back — `get_items (1)` cannot rebuild the row — contrary to
the claim that one stored item suffices for the restore. -/
theorem claim_C9_counterexample :
    (clipman_storage_add_item (ClipmanStorage.mk [] 1)
      ((clipman_item_new_image (some (Pixbuf.mk 1 1 [0] false))
        ClipmanSource.clipboard).getD default) 5).ok = true ∧
    (clipman_storage_add_item (ClipmanStorage.mk [] 1)
      ((clipman_item_new_image (some (Pixbuf.mk 1 1 [0] false))
        ClipmanSource.clipboard).getD default) 5).storage.rows.length = 1 ∧
    on_clipboard_empty true
      (clipman_storage_add_item (ClipmanStorage.mk [] 1)
        ((clipman_item_new_image (some (Pixbuf.mk 1 1 [0] false))
          ClipmanSource.clipboard).getD default) 5).storage
      ClipmanSource.clipboard (Buffers.mk none none)
      = Buffers.mk none none ∧
    on_clipboard_empty true
      (clipman_storage_add_item (ClipmanStorage.mk [] 1)
        ((clipman_item_new_image (some (Pixbuf.mk 1 1 [0] false))
          ClipmanSource.clipboard).getD default) 5).storage
      ClipmanSource.primary (Buffers.mk none none)
      = Buffers.mk none none := by
  decide
